import Mathlib

/-!
Shallow embedding of the YouTube live-chat scraper
(`youtube_chat.py`, `chat_store.py`): JSON-like payload values with
Python truthiness and exception semantics, the chat-item normalizer,
the continuation tracker, the poll-loop token handling, and the
SQLite-backed comment store.
-/

/-- A JSON-like value as manipulated by the Python code. -/
inductive Jsonish where
  | null : Jsonish
  | bool : Bool → Jsonish
  | num : Int → Jsonish
  | str : String → Jsonish
  | arr : List Jsonish → Jsonish
  | obj : List (String × Jsonish) → Jsonish

mutual

/-- Structural equality test (Python `==` on these values). -/
def Jsonish.beq : Jsonish → Jsonish → Bool
  | .null, .null => true
  | .bool a, .bool b => a == b
  | .num a, .num b => a == b
  | .str a, .str b => a == b
  | .arr xs, .arr ys => Jsonish.beqArr xs ys
  | .obj xs, .obj ys => Jsonish.beqObj xs ys
  | _, _ => false

def Jsonish.beqArr : List Jsonish → List Jsonish → Bool
  | [], [] => true
  | x :: xs, y :: ys => Jsonish.beq x y && Jsonish.beqArr xs ys
  | _, _ => false

def Jsonish.beqObj : List (String × Jsonish) → List (String × Jsonish) → Bool
  | [], [] => true
  | (k1, v1) :: xs, (k2, v2) :: ys =>
      k1 == k2 && Jsonish.beq v1 v2 && Jsonish.beqObj xs ys
  | _, _ => false

end

mutual

theorem Jsonish.beq_iff : ∀ a b : Jsonish, Jsonish.beq a b = true ↔ a = b
  | .null, b => by cases b <;> simp [Jsonish.beq]
  | .bool x, b => by cases b <;> simp [Jsonish.beq]
  | .num x, b => by cases b <;> simp [Jsonish.beq]
  | .str x, b => by cases b <;> simp [Jsonish.beq]
  | .arr xs, b => by
      cases b <;> simp [Jsonish.beq]
      exact Jsonish.beqArr_iff xs _
  | .obj xs, b => by
      cases b <;> simp [Jsonish.beq]
      exact Jsonish.beqObj_iff xs _

theorem Jsonish.beqArr_iff : ∀ xs ys : List Jsonish, Jsonish.beqArr xs ys = true ↔ xs = ys
  | [], ys => by cases ys <;> simp [Jsonish.beqArr]
  | x :: xs, ys => by
      cases ys with
      | nil => simp [Jsonish.beqArr]
      | cons y ys =>
          simp [Jsonish.beqArr, Jsonish.beq_iff x y, Jsonish.beqArr_iff xs ys]

theorem Jsonish.beqObj_iff :
    ∀ xs ys : List (String × Jsonish), Jsonish.beqObj xs ys = true ↔ xs = ys
  | [], ys => by cases ys <;> simp [Jsonish.beqObj]
  | (k1, v1) :: xs, ys => by
      cases ys with
      | nil => simp [Jsonish.beqObj]
      | cons y ys =>
          obtain ⟨k2, v2⟩ := y
          simp [Jsonish.beqObj, Jsonish.beq_iff v1 v2, Jsonish.beqObj_iff xs ys,
            and_assoc]

end

instance : DecidableEq Jsonish := fun a b => decidable_of_iff _ (Jsonish.beq_iff a b)

namespace Jsonish

/-- Python truthiness: None, False, 0, "", [], and an empty dict are falsy. -/
def truthy : Jsonish → Bool
  | .null => false
  | .bool b => b
  | .num n => n != 0
  | .str s => s != ""
  | .arr xs => !xs.isEmpty
  | .obj kvs => !kvs.isEmpty

/-- Key lookup on an object; `none` when the value is not an object
or the key is absent. -/
def get? : Jsonish → String → Option Jsonish
  | .obj kvs, k => kvs.lookup k
  | _, _ => none

/-- Key lookup with a default (total variant, used in statements). -/
def getD (j : Jsonish) (k : String) (d : Jsonish) : Jsonish :=
  (j.get? k).getD d

/-- Python `k in d` on a dict; `false` for non-objects. -/
def hasKey : Jsonish → String → Bool
  | .obj kvs, k => kvs.any (fun kv => kv.1 == k)
  | _, _ => false

/-- Reads a value as a list; non-arrays read as `[]`
(the payloads of interest put arrays where the code iterates). -/
def asList : Jsonish → List Jsonish
  | .arr xs => xs
  | _ => []

/-- Reads a value as a string; non-string leaves read as ""
(the payloads of interest put strings where the code uses them as such). -/
def asStr : Jsonish → String
  | .str s => s
  | _ => ""

end Jsonish

/-- Python `a or b`: the first truthy operand, else the second. -/
def pyOr (a b : Jsonish) : Jsonish :=
  if a.truthy then a else b

/-- Exceptions the embedded Python code can raise.  Messages are not
modelled; only the exception class matters to the control flow. -/
inductive PyErr where
  | keyError
  | attributeError
  | valueError
  | typeError
  | indexError
  | runtimeError
  deriving DecidableEq

/-- Python `d.get(k, default)`: raises AttributeError when the receiver
is not a dict. -/
def dictGet (j : Jsonish) (k : String) (d : Jsonish) : Except PyErr Jsonish :=
  match j with
  | .obj kvs => .ok ((kvs.lookup k).getD d)
  | _ => .error .attributeError

/-- Python `d[k]`: KeyError when the key is absent, TypeError when the
receiver is not a dict. -/
def dictIndex (j : Jsonish) (k : String) : Except PyErr Jsonish :=
  match j with
  | .obj kvs =>
      match kvs.lookup k with
      | some v => .ok v
      | none => .error .keyError
  | _ => .error .typeError

instance {ε α : Type} [DecidableEq ε] [DecidableEq α] : DecidableEq (Except ε α) :=
  fun a b =>
    match a, b with
    | .error e, .error f =>
        if h : e = f then .isTrue (by rw [h]) else .isFalse (fun c => by cases c; exact h rfl)
    | .ok x, .ok y =>
        if h : x = y then .isTrue (by rw [h]) else .isFalse (fun c => by cases c; exact h rfl)
    | .error _, .ok _ => .isFalse (fun c => Except.noConfusion c)
    | .ok _, .error _ => .isFalse (fun c => Except.noConfusion c)

/-- Leading and trailing whitespace removed (what `int()` tolerates
around the digits). -/
def stripWS (cs : List Char) : List Char :=
  ((cs.dropWhile Char.isWhitespace).reverse.dropWhile Char.isWhitespace).reverse

/-- Digits of a decimal run, as a natural number; `none` when the run is
empty or contains a non-digit. -/
def digitRunToNat : List Char → Option Nat
  | [] => none
  | cs =>
      if cs.all Char.isDigit then
        some (cs.foldl (fun acc c => acc * 10 + (c.toNat - 48)) 0)
      else none

/-- Python `int(s)` on a string: optional surrounding whitespace and
sign, then decimal digits; ValueError otherwise. -/
def strToInt (s : String) : Except PyErr Int :=
  match stripWS s.data with
  | '-' :: rest =>
      match digitRunToNat rest with
      | some n => .ok (-(n : Int))
      | none => .error .valueError
  | '+' :: rest =>
      match digitRunToNat rest with
      | some n => .ok (n : Int)
      | none => .error .valueError
  | cs =>
      match digitRunToNat cs with
      | some n => .ok (n : Int)
      | none => .error .valueError

/-- Python `int(x)` on a value: ints (and bools) pass through, strings
are parsed, anything else raises TypeError. -/
def pyInt : Jsonish → Except PyErr Int
  | .num n => .ok n
  | .bool b => .ok (if b then 1 else 0)
  | .str s => strToInt s
  | _ => .error .typeError

/-- Python `str(x)`.  Rendering of containers abstracts the exact repr
formatting, which no code path of interest depends on. -/
def pyStr : Jsonish → String
  | .str s => s
  | .num n => toString n
  | .bool b => if b then "True" else "False"
  | .null => "None"
  | .arr _ => "[...]"
  | .obj _ => "(dict)"

/-- One rendered message part, the discriminated union of the spec. -/
inductive MessagePart where
  | text (text : String)
  | emoji (url alt : String)
  | sticker (url alt : String)
  deriving DecidableEq

/-- The normalized chat record built by `fetch_chat_once`.  Fields that
Python leaves as arbitrary payload values (`author`, `icon`, `colors`)
are kept as `Jsonish`; `colors` and `icon` are `null` when absent. -/
structure ChatItem where
  id : String
  colors : Jsonish
  author : Jsonish
  icon : Jsonish
  text : String
  parts : List MessagePart
  timestamp_ms : Int
  timestamp : String
  kind : String
  amount : Option Int
  amount_text : String
  deriving DecidableEq

/-- `runs_to_plain(runs)`: concatenation of the `text` field of each run
(`""` when absent).  Non-list runs and non-dict run entries are read as
empty, a convention for payloads the claims do not exercise. -/
def runs_to_plain (runs : Jsonish) : String :=
  String.join (runs.asList.map fun r => ((r.get? "text").getD (.str "")).asStr)

/-- A character the amount regex `[\d,]+` matches. -/
def isAmountChar (c : Char) : Bool := c.isDigit || c == ','

/-- `parse_amount_to_int(text)`: first run of digits and comma
separators, commas stripped, parsed as an integer; `None` when the text
is empty, no run exists, or the run holds no digit. -/
def parse_amount_to_int (text : String) : Option Int :=
  if text = "" then none
  else
    let run := (text.data.dropWhile (fun c => !isAmountChar c)).takeWhile isAmountChar
    if run.isEmpty then none
    else
      match digitRunToNat (run.filter (fun c => c != ',')) with
      | some n => some (n : Int)
      | none => none

/-- `thumbs[-1]["url"] if thumbs else ""`: the last thumbnail must then
carry the `url` key, or the lookup raises. -/
def last_url (thumbs : List Jsonish) : Except PyErr Jsonish :=
  match thumbs.getLast? with
  | some t => dictIndex t "url"
  | none => pure (Jsonish.str "")

/-- `shortcuts[0] if shortcuts else emoji.get("emojiId", "")`. -/
def first_shortcut (emoji : Jsonish) (shortcuts : List Jsonish) :
    Except PyErr Jsonish :=
  match shortcuts.head? with
  | some s => pure s
  | none => dictGet emoji "emojiId" (.str "")

/-- The emoji arm of `parse_message_parts`: highest-resolution thumbnail
URL (`thumbs[-1]["url"]`, raising when the last thumbnail lacks the key)
and the first shortcut, falling back to `emojiId`. -/
def parse_emoji_part (emoji : Jsonish) : Except PyErr MessagePart := do
  let image ← dictGet emoji "image" (.obj [])
  let tj ← dictGet image "thumbnails" (.arr [])
  let url ← last_url (pyOr tj (.arr [])).asList
  let sj ← dictGet emoji "shortcuts" (.arr [])
  let alt ← first_shortcut emoji (pyOr sj (.arr [])).asList
  pure (.emoji url.asStr alt.asStr)

/-- One run of `parse_message_parts`: a `text` run yields a text part,
an `emoji` run an emoji part, anything else is ignored. -/
def parse_run (r : Jsonish) : Except PyErr (Option MessagePart) :=
  if r.hasKey "text" then
    pure (some (.text ((r.get? "text").getD (.str "")).asStr))
  else if r.hasKey "emoji" then do
    let emoji ← dictIndex r "emoji"
    let p ← parse_emoji_part emoji
    pure (some p)
  else
    pure none

def parse_runs : List Jsonish → Except PyErr (List MessagePart)
  | [] => pure []
  | r :: rest => do
      let p ← parse_run r
      let tail ← parse_runs rest
      pure (match p with | some x => x :: tail | none => tail)

/-- `parse_message_parts(renderer)`: the text/emoji parts of
`renderer.message.runs`. -/
def parse_message_parts (renderer : Jsonish) : Except PyErr (List MessagePart) := do
  let msg ← dictGet renderer "message" (.obj [])
  let runs := (pyOr (← dictGet msg "runs" (.arr [])) (.arr [])).asList
  parse_runs runs

/-- `parse_sticker_parts(renderer)`: always a single sticker part. -/
def parse_sticker_parts (renderer : Jsonish) : Except PyErr (List MessagePart) := do
  let sj ← dictGet renderer "sticker" (.obj [])
  let sticker := pyOr sj (.obj [])
  let tj ← dictGet sticker "thumbnails" (.arr [])
  let url ← last_url (pyOr tj (.arr [])).asList
  let acc ← dictGet sticker "accessibility" (.obj [])
  let ad ← dictGet acc "accessibilityData" (.obj [])
  let label ← dictGet ad "label" (.str "")
  pure [.sticker url.asStr label.asStr]

/-- Uppercase base-16 digits of `n`, `width` wide. -/
def hexDigits (n : Nat) (width : Nat) : String :=
  let rec go : Nat → Nat → List Char → List Char
    | 0, _, acc => acc
    | w + 1, m, acc =>
        go w (m / 16) ("0123456789ABCDEF".data.getD (m % 16) '0' :: acc)
  ⟨go width n []⟩

/-- `to_hex(value)`: `None` stays `None`; an integer is masked to its
low 24 bits and rendered `#RRGGBB`; other values raise TypeError when
the mask is applied. -/
def to_hex (v : Jsonish) : Except PyErr Jsonish :=
  match v with
  | .null => .ok .null
  | .num n => .ok (.str ("#" ++ hexDigits (Int.emod n 16777216).toNat 6))
  | .bool b => .ok (.str ("#" ++ hexDigits (if b then 1 else 0) 6))
  | _ => .error .typeError

/-- `extract_author_photo(renderer, msg_type)`: last `authorPhoto`
thumbnail URL, with a gift-purchase fallback to the sponsorships
header; `None` when neither location has thumbnails. -/
def extract_author_photo (renderer : Jsonish) (msg_type : String) :
    Except PyErr Jsonish := do
  let ap ← dictGet renderer "authorPhoto" (.obj [])
  let thumbs ← dictGet ap "thumbnails" .null
  if thumbs.truthy then
    match thumbs.asList.getLast? with
    | some t => dictGet t "url" .null
    | none => pure .null
  else if msg_type = "gift_purchase" then do
    let header ← dictGet renderer "header" (.obj [])
    let hr ← dictGet header "liveChatSponsorshipsHeaderRenderer" (.obj [])
    let ap2 ← dictGet hr "authorPhoto" (.obj [])
    let thumbs2 ← dictGet ap2 "thumbnails" .null
    if thumbs2.truthy then
      match thumbs2.asList.getLast? with
      | some t => dictGet t "url" .null
      | none => pure .null
    else pure .null
  else pure .null

/-- The body shared by both wrapper arms of
`extract_continuation_data`: `block["continuation"]` (KeyError when
absent) and `int(block.get("timeoutMs", 2000))`. -/
def extract_block (block : Jsonish) : Except PyErr (Jsonish × Int) := do
  let c ← dictIndex block "continuation"
  let t ← pyInt (← dictGet block "timeoutMs" (.num 2000))
  pure (c, t)

/-- `extract_continuation_data(cont0)`: first of the two known wrapper
keys wins; neither present raises RuntimeError. -/
def extract_continuation_data (cont0 : Jsonish) : Except PyErr (Jsonish × Int) :=
  if cont0.hasKey "timedContinuationData" then
    extract_block ((cont0.get? "timedContinuationData").getD .null)
  else if cont0.hasKey "invalidationContinuationData" then
    extract_block ((cont0.get? "invalidationContinuationData").getD .null)
  else .error .runtimeError

/-- The renderer-key dispatch chain of `fetch_chat_once` (its if/elif
ladder): the matched message type together with the renderer value. -/
def classify (item : Jsonish) : Option (String × Jsonish) :=
  if item.hasKey "liveChatTextMessageRenderer" then
    some ("text", item.getD "liveChatTextMessageRenderer" .null)
  else if item.hasKey "liveChatPaidMessageRenderer" then
    some ("paid", item.getD "liveChatPaidMessageRenderer" .null)
  else if item.hasKey "liveChatPaidStickerRenderer" then
    some ("sticker", item.getD "liveChatPaidStickerRenderer" .null)
  else if item.hasKey "liveChatMembershipItemRenderer" then
    some ("membership", item.getD "liveChatMembershipItemRenderer" .null)
  else if item.hasKey "liveChatSponsorshipsGiftPurchaseAnnouncementRenderer" then
    some ("gift_purchase", item.getD "liveChatSponsorshipsGiftPurchaseAnnouncementRenderer" .null)
  else if item.hasKey "liveChatGiftRedemptionAnnouncementRenderer" then
    some ("gift_redeem", item.getD "liveChatGiftRedemptionAnnouncementRenderer" .null)
  else none

/-- `block.get("simpleText") or runs_to_plain(block.get("runs", []))`,
with the second operand evaluated only when the first is falsy. -/
def simple_or_runs (block st : Jsonish) : Except PyErr Jsonish :=
  if st.truthy then pure st
  else do
    let runs ← dictGet block "runs" (.arr [])
    pure (.str (runs_to_plain runs))

/-- Author extraction (the `authorName` block): `simpleText` when
truthy, else the flattened `runs`. -/
def get_author (renderer : Jsonish) : Except PyErr Jsonish := do
  let ab ← dictGet renderer "authorName" (.obj [])
  let author_block := pyOr ab (.obj [])
  let st ← dictGet author_block "simpleText" .null
  simple_or_runs author_block st

/-- `int(renderer.get("timestampUsec", "0"))`. -/
def get_timestamp_usec (renderer : Jsonish) : Except PyErr Int := do
  pyInt (← dictGet renderer "timestampUsec" (.str "0"))

/-- `"".join(p["text"] for p in parts if p["type"] == "text")`. -/
def partsText (parts : List MessagePart) : String :=
  String.join (parts.filterMap fun p =>
    match p with
    | .text t => some t
    | _ => none)

/-- `renderer.get("purchaseAmountText", {}).get("simpleText", "") or ""`,
which `parse_amount_to_int` then applies a regex to: a truthy
non-string raises TypeError there. -/
def get_amount_text (renderer : Jsonish) : Except PyErr String := do
  let pat ← dictGet renderer "purchaseAmountText" (.obj [])
  let st ← dictGet pat "simpleText" (.str "")
  match pyOr st (.str "") with
  | .str s => pure s
  | _ => .error .typeError

/-- `" ".join(filter(None, pieces)) or fallback`. -/
def joinNonEmpty (pieces : List String) (fallback : String) : String :=
  let t := String.intercalate " " (pieces.filter (fun s => s ≠ ""))
  if t = "" then fallback else t

/-- `raw_author.lstrip("@") if raw_author else ""`: `lstrip` raises on
a truthy non-string. -/
def lstrip_at (raw_author : Jsonish) : Except PyErr String :=
  if raw_author.truthy then
    match raw_author with
    | .str s => pure ⟨s.data.dropWhile (fun c => c == '@')⟩
    | _ => .error .attributeError
  else pure ""

/-- Gift-redeem parts: the parsed `message.runs` when present, else one
synthesized text part. -/
def redeem_parts (text_plain : String) (message_runs : Jsonish) :
    Except PyErr (List MessagePart) :=
  if message_runs.truthy then
    parse_message_parts (.obj [("message", .obj [("runs", message_runs)])])
  else pure [MessagePart.text text_plain]

/-- The per-kind values computed by the dispatch arms of
`fetch_chat_once` (lines 243-293 of `youtube_chat.py`). -/
structure KindData where
  parts : List MessagePart
  text_plain : String
  author : Jsonish
  amount_value : Option Int
  amount_text : String
  super_colors : Jsonish
  deriving DecidableEq

/-- The six dispatch arms of `fetch_chat_once`: parts, flattened text,
possibly overridden author, amount and colors for the matched kind. -/
def build_kind (msg_type : String) (renderer author0 : Jsonish) :
    Except PyErr KindData := do
  if msg_type = "text" then
    let parts ← parse_message_parts renderer
    pure ⟨parts, partsText parts, author0, none, "", .null⟩
  else if msg_type = "paid" then
    let parts ← parse_message_parts renderer
    let amount_text ← get_amount_text renderer
    let amount_value := parse_amount_to_int amount_text
    let hb ← to_hex (← dictGet renderer "headerBackgroundColor" .null)
    let ht ← to_hex (← dictGet renderer "headerTextColor" .null)
    let bb ← to_hex (← dictGet renderer "bodyBackgroundColor" .null)
    let bt ← to_hex (← dictGet renderer "bodyTextColor" .null)
    pure ⟨parts, partsText parts, author0, amount_value, amount_text,
      .obj [("header_bg", hb), ("header_text", ht), ("body_bg", bb), ("body_text", bt)]⟩
  else if msg_type = "sticker" then
    let parts ← parse_sticker_parts renderer
    let amount_text ← get_amount_text renderer
    let amount_value := parse_amount_to_int amount_text
    let bg_raw ← dictGet renderer "backgroundColor" .null
    let text_raw :=
      pyOr (← dictGet renderer "moneyChipTextColor" .null)
        (← dictGet renderer "authorNameTextColor" .null)
    let bb ← to_hex bg_raw
    let bt ← to_hex text_raw
    pure ⟨parts, "[STICKER]", author0, amount_value, amount_text,
      .obj [("body_bg", bb), ("body_text", bt)]⟩
  else if msg_type = "membership" then
    let parts ← parse_message_parts renderer
    let hp ← dictGet renderer "headerPrimaryText" (.obj [])
    let header_primary := runs_to_plain (← dictGet hp "runs" (.arr []))
    let hs ← dictGet renderer "headerSubtext" (.obj [])
    let header_sub := runs_to_plain (← dictGet hs "runs" (.arr []))
    let body_text := partsText parts
    let text_plain := joinNonEmpty [header_primary, header_sub, body_text] "[MEMBERSHIP]"
    pure ⟨parts, text_plain, author0, none, "", .null⟩
  else if msg_type = "gift_purchase" then
    let h ← dictGet renderer "header" (.obj [])
    let h2 ← dictGet h "liveChatSponsorshipsHeaderRenderer" (.obj [])
    let header := pyOr h2 (.obj [])
    let ha ← dictGet header "authorName" (.obj [])
    let header_author := pyOr ha (.obj [])
    let st ← dictGet header_author "simpleText" .null
    let raw_author ← simple_or_runs header_author st
    let display_name ← lstrip_at raw_author
    let author := pyOr (.str display_name) (pyOr author0 (.str "Unknown"))
    let message :=
      if display_name ≠ "" then pyStr author ++ " sent gift memberships"
      else "A viewer sent gift memberships"
    pure ⟨[.text message], message, author, none, "", .null⟩
  else if msg_type = "gift_redeem" then
    let hd ← dictGet renderer "header" (.obj [])
    let header_text := runs_to_plain (← dictGet hd "runs" (.arr []))
    let sub ← dictGet renderer "subtext" (.obj [])
    let subtext := runs_to_plain (← dictGet sub "runs" (.arr []))
    let text_plain := joinNonEmpty [header_text, subtext] "[GIFT REDEEM]"
    let msg ← dictGet renderer "message" (.obj [])
    let message_runs ← dictGet msg "runs" (.arr [])
    let parts ← redeem_parts text_plain message_runs
    let author := if author0.truthy then author0 else .str "Unknown"
    pure ⟨parts, text_plain, author, none, "", .null⟩
  else
    pure ⟨[], "", author0, none, "", .null⟩

/-- The synthetic identifier `f"(ts)_(author)_(text)_(idx)"` used when
the platform supplies no native id. -/
def syntheticId (timestamp_ms : Int) (author : Jsonish) (text : String) (idx : Nat) :
    String :=
  toString timestamp_ms ++ "_" ++ pyStr author ++ "_" ++ text ++ "_" ++ toString idx

/-- The tail of the per-item loop (lines 295-320): author fallback,
icon, id derivation, record assembly.  `fmt` stands for
`format_datetime`, whose local-time rendering is outside the model. -/
def finalize (fmt : Int → String) (idx : Nat) (msg_type : String)
    (renderer : Jsonish) (kd : KindData) (timestamp_ms : Int) :
    Except PyErr ChatItem := do
  let author := if kd.author.truthy then kd.author else .str "Unknown"
  let icon ← extract_author_photo renderer msg_type
  let raw_id :=
    pyOr (← dictGet renderer "id" .null)
      (pyOr (← dictGet renderer "messageId" .null)
        (← dictGet renderer "trackingParams" .null))
  let msg_id := pyStr (pyOr raw_id (.str (syntheticId timestamp_ms author kd.text_plain idx)))
  pure
    { id := msg_id
      colors := kd.super_colors
      author := author
      icon := icon
      text := kd.text_plain
      parts := kd.parts
      timestamp_ms := timestamp_ms
      timestamp := fmt timestamp_ms
      kind := msg_type
      amount := kd.amount_value
      amount_text := kd.amount_text }

/-- `action.get("addChatItemAction", {}).get("item")`. -/
def item_of (action : Jsonish) : Except PyErr Jsonish := do
  let aci ← dictGet action "addChatItemAction" (.obj [])
  dictGet aci "item" .null

/-- One pass of the per-item loop body of `fetch_chat_once`: `.ok none`
when the item is skipped (absent/falsy item, unrecognized renderer key,
falsy renderer), `.ok (some c)` when a record is appended, `.error`
when the body raises. -/
def normalize_item (fmt : Int → String) (idx : Nat) (action : Jsonish) :
    Except PyErr (Option ChatItem) := do
  let item ← item_of action
  if !item.truthy then pure none
  else
    match classify item with
    | none => pure none
    | some (msg_type, renderer) =>
      if !renderer.truthy then pure none
      else do
        let author0 ← get_author renderer
        let tsu ← get_timestamp_usec renderer
        let timestamp_ms := Int.fdiv tsu 1000
        let kd ← build_kind msg_type renderer author0
        let c ← finalize fmt idx msg_type renderer kd timestamp_ms
        pure (some c)

/-- The enumerated loop over `actions`: a raised exception aborts the
remainder of the batch, exactly as in the Python `for` body. -/
def process_actions_from (fmt : Int → String) (idx : Nat) :
    List Jsonish → Except PyErr (List ChatItem)
  | [] => pure []
  | a :: rest => do
      let r ← normalize_item fmt idx a
      let tail ← process_actions_from fmt (idx + 1) rest
      pure (match r with | some c => c :: tail | none => tail)

/-- `fetch_chat_once`, applied to an already-decoded response body:
normalized items, next continuation token, recommended delay. -/
def fetch_chat_once (fmt : Int → String) (resp : Jsonish) :
    Except PyErr (List ChatItem × Jsonish × Int) := do
  let cc ← dictIndex resp "continuationContents"
  let live_cont ← dictIndex cc "liveChatContinuation"
  let actions := (pyOr (← dictGet live_cont "actions" (.arr [])) (.arr [])).asList
  let chat_items ← process_actions_from fmt 0 actions
  let conts ← dictIndex live_cont "continuations"
  let cont0 ← match conts.asList.head? with
    | some c => pure c
    | none => .error .indexError
  let (next_cont, timeout_ms) ← extract_continuation_data cont0
  pure (chat_items, next_cont, timeout_ms)

/-- Whether handing some event of the batch to the persistence/console
step raises, for an abstract per-position failure oracle (the `for msg
in chat_items` body of `start_live_chat`). -/
def save_loop_raises (saveRaises : Nat → Bool) : Nat → List ChatItem → Bool
  | _, [] => false
  | k, _ :: rest => saveRaises k || save_loop_raises saveRaises (k + 1) rest

/-- One iteration of the `while` loop of `start_live_chat`: `resp` is
the transport outcome (`none` models a raise inside `post_live_chat`),
`saveRaises` an abstract failure oracle for the persistence/console
step.  Returns the continuation token held after the iteration and
whether the iteration's body raised (landing in the `except` arm).
Faithful to the source order: `continuation = next_cont` runs before
the save loop. -/
def poll_iter (fmt : Int → String) (resp : Option Jsonish)
    (saveRaises : Nat → Bool) (cont : Jsonish) : Jsonish × Bool :=
  match resp with
  | none => (cont, true)
  | some j =>
    match fetch_chat_once fmt j with
    | .error _ => (cont, true)
    | .ok (chat_items, next_cont, _) =>
        (next_cont, save_loop_raises saveRaises 0 chat_items)

/-! ## The comment store (`chat_store.py`)

A row of the `comments` table; every column keeps the bound Python
value.  The list order of a store is `rowid` (insertion) order. -/

structure StoreRow where
  id : Jsonish
  video_id : Jsonish
  timestamp_ms : Jsonish
  timestamp : Jsonish
  author : Jsonish
  text : Jsonish
  kind : Jsonish
  amount : Jsonish
  amount_text : Jsonish
  icon : Jsonish
  parts_json : Jsonish
  colors_json : Jsonish
  deriving DecidableEq

/-- The parameter tuple `save_comment` binds into `_INSERT_SQL`:
`msg.get(column)` for each column, `json.dumps` kept as the identity on
the dumped value (`parts_json` defaults to `[]`, `colors_json` to
`null` when the key is absent). -/
def rowOf (msg : Jsonish) : StoreRow where
  id := msg.getD "id" .null
  video_id := msg.getD "video_id" .null
  timestamp_ms := msg.getD "timestamp_ms" .null
  timestamp := msg.getD "timestamp" .null
  author := msg.getD "author" .null
  text := msg.getD "text" .null
  kind := msg.getD "kind" .null
  amount := msg.getD "amount" .null
  amount_text := msg.getD "amount_text" .null
  icon := msg.getD "icon" .null
  parts_json := pyOr (msg.getD "parts" .null) (.arr [])
  colors_json := msg.getD "colors" .null

/-- `INSERT OR IGNORE ... (id TEXT PRIMARY KEY)`: the row is appended
unless some stored row already has its id. -/
def insert_or_ignore (s : List StoreRow) (r : StoreRow) : List StoreRow :=
  if s.any (fun x => x.id == r.id) then s else s ++ [r]

/-- `save_comment(msg)`: no-op when the store is uninitialized, the
message is falsy, or it lacks an `"id"` key; otherwise an
insert-or-ignore.  Total: `INSERT OR IGNORE` raises no duplicate-key
error, and `sqlite3.DatabaseError` is caught and swallowed. -/
def save_comment (db : Option (List StoreRow)) (msg : Jsonish) :
    Option (List StoreRow) :=
  match db with
  | none => none
  | some s =>
      if !msg.truthy || !msg.hasKey "id" then some s
      else some (insert_or_ignore s (rowOf msg))

/-- The `timestamp_ms` column as the integer the `ORDER BY` compares;
the model fixes integer-valued timestamps (hypothesis of the theorems
about it) and reads anything else as 0. -/
def rowTs (r : StoreRow) : Int :=
  match r.timestamp_ms with
  | .num n => n
  | _ => 0

/-- The `ORDER BY timestamp_ms, rowid` key order on `(rowid, row)`
pairs (ascending; the query sorts by its converse). -/
def chronoLE (a b : Nat × StoreRow) : Prop :=
  rowTs a.2 < rowTs b.2 ∨ (rowTs a.2 = rowTs b.2 ∧ a.1 ≤ b.1)

instance : DecidableRel chronoLE := fun a b => by
  unfold chronoLE; infer_instance

instance chronoGE_dec : DecidableRel (fun a b => chronoLE b a) := fun a b =>
  inferInstanceAs (Decidable (chronoLE b a))

/-- `ORDER BY timestamp_ms DESC, rowid DESC LIMIT lim` followed by
`reversed(rows)`: rows keyed by rowid, sorted descending, truncated,
then reversed into chronological order. -/
def recent_keyed (s : List StoreRow) (lim : Nat) : List (Nat × StoreRow) :=
  ((s.enum.insertionSort (fun a b => chronoLE b a)).take lim).reverse

/-- `get_recent_comments(limit)`: `[]` on an uninitialized store; an
out-of-range limit falls back to the default 50.  Row-to-dict
rebuilding (including the JSON round trip of `parts`/`colors`) is the
identity on the model's rows. -/
def get_recent_comments (db : Option (List StoreRow)) (limit : Int) :
    List StoreRow :=
  match db with
  | none => []
  | some s =>
      let lim : Nat := if 1 ≤ limit ∧ limit ≤ 500 then limit.toNat else 50
      (recent_keyed s lim).map Prod.snd

/-! ## Helper lemmas -/

theorem except_bind_ok {ε α β : Type} (a : α) (f : α → Except ε β) :
    (Except.ok a >>= f : Except ε β) = f a := rfl

theorem except_bind_error {ε α β : Type} (e : ε) (f : α → Except ε β) :
    ((Except.error e : Except ε α) >>= f) = .error e := rfl

theorem except_pure_eq {ε α : Type} (a : α) : (pure a : Except ε α) = .ok a := rfl

theorem dictGet_ok {j : Jsonish} {k : String} {d v : Jsonish}
    (h : dictGet j k d = .ok v) : v = j.getD k d := by
  cases j <;> simp [dictGet] at h
  simp [Jsonish.getD, Jsonish.get?, h]

theorem hasKey_eq_isSome (j : Jsonish) (k : String) :
    j.hasKey k = (j.get? k).isSome := by
  cases j <;> simp [Jsonish.hasKey, Jsonish.get?]
  case obj kvs =>
    induction kvs with
    | nil => simp
    | cons kv rest ih =>
        obtain ⟨k', v'⟩ := kv
        simp only [List.any_cons, List.lookup]
        by_cases hk : k' = k
        · subst hk; simp
        · have h1 : (k' == k) = false := by simp [hk]
          have h2 : (k == k') = false := by simp [Ne.symm hk]
          simp [h1, h2, ih]

/-! ## Concrete fixtures -/

/-- A stand-in for `format_datetime` in concrete computations. -/
def fmt0 : Int → String := fun _ => ""

/-- A well-formed text chat action with a native id, an author, one
text run and one emoji run. -/
def goodText : Jsonish :=
  .obj [("addChatItemAction", .obj [("item", .obj [("liveChatTextMessageRenderer", .obj [
    ("id", .str "abc123"),
    ("authorName", .obj [("simpleText", .str "alice")]),
    ("timestampUsec", .str "1700000000000000"),
    ("message", .obj [("runs", .arr [.obj [("text", .str "hello")],
      .obj [("emoji", .obj [("image", .obj [("thumbnails", .arr [.obj [("url", .str "http://e")]])]),
        ("shortcuts", .arr [.str ":smile:"])])]])])])])])]

/-- A recognized text item whose emoji run has a thumbnail entry that
lacks the required `url` subfield: `thumbs[-1]["url"]` raises. -/
def badEmoji : Jsonish :=
  .obj [("addChatItemAction", .obj [("item", .obj [("liveChatTextMessageRenderer", .obj [
    ("authorName", .obj [("simpleText", .str "bob")]),
    ("timestampUsec", .str "1700000000000000"),
    ("message", .obj [("runs", .arr [.obj [("emoji",
      .obj [("image", .obj [("thumbnails", .arr [.obj []])])])]])])])])])]

/-- An action whose item carries an unrecognized renderer key. -/
def unknownItem : Jsonish :=
  .obj [("addChatItemAction", .obj [("item",
    .obj [("someFutureRenderer", .obj [("x", .str "y")])])])]

/-- A text item with no author field and no native id. -/
def noAuthorText : Jsonish :=
  .obj [("addChatItemAction", .obj [("item", .obj [("liveChatTextMessageRenderer", .obj [
    ("timestampUsec", .str "5000"),
    ("message", .obj [("runs", .arr [.obj [("text", .str "hi")]])])])])])]

/-- A response carrying one good text item and continuation "B". -/
def resp1 : Jsonish :=
  .obj [("continuationContents", .obj [("liveChatContinuation", .obj [
    ("actions", .arr [goodText]),
    ("continuations", .arr [.obj [("timedContinuationData",
      .obj [("continuation", .str "B"), ("timeoutMs", .num 1000)])]])])])]

/-! ## C7 — amount parsing -/

theorem parse_amount_no_digits (s : String) (h : ∀ c ∈ s.data, c.isDigit = false) :
    parse_amount_to_int s = none := by
  unfold parse_amount_to_int
  by_cases hs : s = ""
  · simp [hs]
  · simp only [hs, if_false]
    set run := (s.data.dropWhile (fun c => !isAmountChar c)).takeWhile isAmountChar with hrun
    by_cases hr : run.isEmpty
    · simp [hr]
    · simp only [hr, if_false]
      have hmem : ∀ c ∈ run, c = ',' := by
        intro c hc
        have h1 : isAmountChar c = true := List.mem_takeWhile_imp hc
        have h2 : c ∈ s.data := by
          have hm := (List.takeWhile_sublist isAmountChar).mem hc
          exact (List.dropWhile_sublist _).mem hm
        have h3 := h c h2
        simp [isAmountChar, h3] at h1
        exact h1
      have hfil : run.filter (fun c => c != ',') = [] := by
        rw [List.filter_eq_nil_iff]
        intro c hc
        simp [hmem c hc]
      rw [hfil]
      rfl

/-- C7: amount parsing extracts the first run of digits and comma
separators, strips the commas, and parses the rest as an integer;
`"¥1,234"` yields `1234`, while an empty input or an input with no
digit yields `none` without an error. -/
theorem parse_amount_spec :
    parse_amount_to_int "¥1,234" = some 1234 ∧
    parse_amount_to_int "" = none ∧
    ∀ s : String, (∀ c ∈ s.data, c.isDigit = false) → parse_amount_to_int s = none :=
  ⟨by decide, by decide, parse_amount_no_digits⟩

theorem parse_amount_spec_witness : parse_amount_to_int "abc," = none :=
  parse_amount_spec.2.2 "abc," (by decide)

/-! ## C10 — save_comment guard conditions -/

/-- C10: `save_comment` on an uninitialized store, a falsy message, or
a message without an `"id"` key returns without attempting an insert,
leaving the store unchanged. -/
theorem save_comment_guards :
    (∀ msg, save_comment none msg = none) ∧
    (∀ s msg, msg.truthy = false → save_comment (some s) msg = some s) ∧
    (∀ s msg, msg.hasKey "id" = false → save_comment (some s) msg = some s) := by
  refine ⟨fun msg => rfl, ?_, ?_⟩
  · intro s msg h
    simp [save_comment, h]
  · intro s msg h
    simp [save_comment, h]

theorem save_comment_guards_witness :
    save_comment (some []) (.obj [("text", .str "no id key")]) = some [] :=
  save_comment_guards.2.2 [] (.obj [("text", .str "no id key")]) (by decide)

/-! ## C1 — token handling of the poll loop

The source replaces the held token (`continuation = next_cont`,
line 358) before the save loop (lines 359-367), so an exception while
handing events to persistence does not restore the previous token. -/

/-- C1 counterexample: an iteration whose fetch and extraction succeed
(next token "B") but whose persistence handoff raises still ends
holding "B", not the prior token "A", contradicting the claim that the
token is replaced only after persistence succeeds. -/
theorem poll_token_advance_cex :
    poll_iter fmt0 (some resp1) (fun _ => true) (.str "A") = (.str "B", true) ∧
    Jsonish.str "B" ≠ Jsonish.str "A" := by
  exact ⟨by decide, by decide⟩

/-- C1 (amended): the held token is replaced with the next token as
soon as fetching, continuation extraction and normalization succeed —
before the events are handed to persistence; an iteration that raises
during fetch/extraction/normalization reuses the previously held
token, while a raise during the persistence handoff keeps the newly
obtained token. -/
theorem poll_iter_token_retention (fmt : Int → String) (resp : Option Jsonish)
    (saveRaises : Nat → Bool) (cont : Jsonish) :
    (resp = none → poll_iter fmt resp saveRaises cont = (cont, true)) ∧
    (∀ j e, resp = some j → fetch_chat_once fmt j = .error e →
        poll_iter fmt resp saveRaises cont = (cont, true)) ∧
    (∀ j items next t, resp = some j →
        fetch_chat_once fmt j = .ok (items, next, t) →
        (poll_iter fmt resp saveRaises cont).1 = next) := by
  refine ⟨?_, ?_, ?_⟩
  · rintro rfl; rfl
  · rintro j e rfl hf
    simp [poll_iter, hf]
  · rintro j items next t rfl hf
    simp [poll_iter, hf]

theorem poll_iter_token_retention_witness :
    poll_iter fmt0 (some (.obj [])) (fun _ => false) (.str "A") = (.str "A", true) :=
  (poll_iter_token_retention fmt0 (some (.obj [])) (fun _ => false)
    (.str "A")).2.1 (.obj []) .keyError rfl rfl

/-! ## C2 — skip policy of the per-item loop -/

/-- The skip conditions of the per-item loop: absent or falsy item,
unrecognized renderer key, or falsy renderer value. -/
def is_skipped (a : Jsonish) : Bool :=
  match item_of a with
  | .error _ => false
  | .ok item =>
      !item.truthy ||
        match classify item with
        | none => true
        | some (_, renderer) => !renderer.truthy

/-- C2 counterexample: a batch whose first item is recognized but
missing a required subfield (an emoji thumbnail without `url`) is
aborted wholesale with a KeyError, even though the second item on its
own normalizes fine — contradicting the claim that a malformed item is
skipped and never aborts the rest of the batch. -/
theorem malformed_item_aborts_batch :
    process_actions_from fmt0 0 [badEmoji, goodText] = .error .keyError ∧
    (∃ c, normalize_item fmt0 1 goodText = .ok (some c)) := by
  constructor
  · decide
  · exact ⟨_, rfl⟩

/-- C2 (amended): an item whose `addChatItemAction.item` is absent or
falsy, whose renderer key is unrecognized, or whose renderer value is
falsy, is silently skipped and the remaining items of the batch are
processed exactly as they would be at their positions; an item missing
a required subfield of a recognized renderer, however, raises and
aborts the whole batch. -/
theorem unrecognized_item_skipped (fmt : Int → String) (idx : Nat)
    (a : Jsonish) (rest : List Jsonish) (h : is_skipped a = true) :
    normalize_item fmt idx a = .ok none ∧
    process_actions_from fmt idx (a :: rest) =
      process_actions_from fmt (idx + 1) rest := by
  have hn : normalize_item fmt idx a = .ok none := by
    unfold is_skipped at h
    unfold normalize_item
    cases hio : item_of a with
    | error e => rw [hio] at h; simp at h
    | ok item =>
        rw [hio] at h
        rw [except_bind_ok]
        have h2 : (!item.truthy ||
            match classify item with
            | none => true
            | some (_, renderer) => !renderer.truthy) = true := h
        cases ht : item.truthy with
        | false => simp [ht, except_pure_eq]
        | true =>
            rw [ht] at h2
            simp only [Bool.not_true, Bool.false_or] at h2
            simp only [ht, Bool.not_true, Bool.false_eq_true, if_false]
            cases hc : classify item with
            | none => simp [except_pure_eq]
            | some p =>
                obtain ⟨mt, renderer⟩ := p
                rw [hc] at h2
                have hr : renderer.truthy = false := by simpa using h2
                simp [hr, except_pure_eq]
  refine ⟨hn, ?_⟩
  have heq : process_actions_from fmt idx (a :: rest) =
      (normalize_item fmt idx a >>= fun r =>
        process_actions_from fmt (idx + 1) rest >>= fun tail =>
          pure (match r with | some c => c :: tail | none => tail)) := rfl
  rw [heq, hn, except_bind_ok]
  cases hp : process_actions_from fmt (idx + 1) rest <;>
    simp [except_bind_ok, except_bind_error, except_pure_eq]

theorem bind_ok_inv {ε α β : Type} {e : Except ε α} {f : α → Except ε β} {b : β}
    (h : (e >>= f) = .ok b) : ∃ a, e = .ok a ∧ f a = .ok b := by
  cases e with
  | error err => rw [except_bind_error] at h; exact absurd h (by simp)
  | ok a => exact ⟨a, rfl, h⟩

theorem pure_ok_inv {ε β : Type} {a b : β} (h : (pure a : Except ε β) = .ok b) :
    a = b := by
  rw [except_pure_eq] at h
  exact Except.ok.inj h

/-- Inversion of a successful, non-skipped pass of the per-item loop:
the produced record factors through classification, author and
timestamp extraction, the kind dispatch, and the finalizing tail. -/
theorem normalize_item_ok_some {fmt : Int → String} {idx : Nat} {a : Jsonish}
    {c : ChatItem} (h : normalize_item fmt idx a = .ok (some c)) :
    ∃ item msg_type renderer author0 tsu kd,
      item_of a = .ok item ∧ item.truthy = true ∧
      classify item = some (msg_type, renderer) ∧ renderer.truthy = true ∧
      get_author renderer = .ok author0 ∧
      get_timestamp_usec renderer = .ok tsu ∧
      build_kind msg_type renderer author0 = .ok kd ∧
      finalize fmt idx msg_type renderer kd (Int.fdiv tsu 1000) = .ok c := by
  unfold normalize_item at h
  obtain ⟨item, hio, h⟩ := bind_ok_inv h
  cases ht : item.truthy with
  | false => rw [ht] at h; exact absurd (pure_ok_inv h) (by simp)
  | true =>
      rw [ht] at h
      simp only [Bool.not_true, Bool.false_eq_true, if_false] at h
      cases hc : classify item with
      | none => rw [hc] at h; exact absurd (pure_ok_inv h) (by simp)
      | some p =>
          obtain ⟨msg_type, renderer⟩ := p
          rw [hc] at h
          have h2 : (if (!renderer.truthy) = true then
                (pure none : Except PyErr (Option ChatItem))
              else do
                let author0 ← get_author renderer
                let tsu ← get_timestamp_usec renderer
                let timestamp_ms : Int := tsu.fdiv 1000
                let kd ← build_kind msg_type renderer author0
                let c2 ← finalize fmt idx msg_type renderer kd timestamp_ms
                pure (some c2)) = Except.ok (some c) := h
          clear h
          cases hrt : renderer.truthy with
          | false => rw [hrt] at h2; exact absurd (pure_ok_inv h2) (by simp)
          | true =>
              rw [hrt] at h2
              simp only [Bool.not_true, Bool.false_eq_true, if_false] at h2
              rename' h2 => h
              obtain ⟨author0, ha, h⟩ := bind_ok_inv h
              obtain ⟨tsu, hts, h⟩ := bind_ok_inv h
              obtain ⟨kd, hbk, h⟩ := bind_ok_inv h
              obtain ⟨c', hfin, h⟩ := bind_ok_inv h
              have hc' : some c' = some c := pure_ok_inv h
              exact ⟨item, msg_type, renderer, author0, tsu, kd, hio, ht, hc,
                hrt, ha, hts, hbk, by rw [hfin, Option.some.inj hc']⟩

/-- A part that is a text or an emoji segment. -/
def textOrEmoji (p : MessagePart) : Prop :=
  (∃ t, p = .text t) ∨ (∃ u al, p = .emoji u al)

/-- `renderer.get("id") or renderer.get("messageId") or
renderer.get("trackingParams")`, via total lookups. -/
def rawIdOf (renderer : Jsonish) : Jsonish :=
  pyOr (renderer.getD "id" .null)
    (pyOr (renderer.getD "messageId" .null) (renderer.getD "trackingParams" .null))

/-- A value that is a string whenever it is truthy (the typing the
platform schema guarantees for `simpleText` fields). -/
def strIfTruthy (j : Jsonish) : Bool :=
  !j.truthy ||
    match j with
    | .str _ => true
    | _ => false

/-- The `authorName.simpleText` value the author extraction reads. -/
def authorNameSimpleText (renderer : Jsonish) : Jsonish :=
  (pyOr (renderer.getD "authorName" (.obj [])) (.obj [])).getD "simpleText" .null

theorem parse_emoji_part_shape {emoji : Jsonish} {p : MessagePart}
    (h : parse_emoji_part emoji = .ok p) : ∃ u al, p = .emoji u al := by
  unfold parse_emoji_part at h
  obtain ⟨image, _, h⟩ := bind_ok_inv h
  obtain ⟨tj, _, h⟩ := bind_ok_inv h
  obtain ⟨url, _, h⟩ := bind_ok_inv h
  obtain ⟨sj, _, h⟩ := bind_ok_inv h
  obtain ⟨alt, _, h⟩ := bind_ok_inv h
  exact ⟨url.asStr, alt.asStr, (pure_ok_inv h).symm⟩

theorem parse_run_shape {r : Jsonish} {p : MessagePart}
    (h : parse_run r = .ok (some p)) : textOrEmoji p := by
  unfold parse_run at h
  by_cases h1 : r.hasKey "text"
  · rw [if_pos h1] at h
    have := pure_ok_inv h
    exact Or.inl ⟨_, (Option.some.inj this).symm⟩
  · rw [if_neg h1] at h
    by_cases h2 : r.hasKey "emoji"
    · rw [if_pos h2] at h
      obtain ⟨emoji, _, h⟩ := bind_ok_inv h
      obtain ⟨p', hp', h⟩ := bind_ok_inv h
      obtain ⟨u, al, rfl⟩ := parse_emoji_part_shape hp'
      have := Option.some.inj (pure_ok_inv h)
      exact Or.inr ⟨u, al, this.symm⟩
    · rw [if_neg h2] at h
      exact absurd (pure_ok_inv h) (by simp)

theorem parse_runs_shape {rs : List Jsonish} {ps : List MessagePart}
    (h : parse_runs rs = .ok ps) : ∀ p ∈ ps, textOrEmoji p := by
  induction rs generalizing ps with
  | nil =>
      have : ([] : List MessagePart) = ps := pure_ok_inv h
      subst this
      intro p hp
      simp at hp
  | cons r rest ih =>
      unfold parse_runs at h
      obtain ⟨po, hpo, h⟩ := bind_ok_inv h
      obtain ⟨tail, htail, h⟩ := bind_ok_inv h
      have hps := pure_ok_inv h
      intro p hp
      rw [← hps] at hp
      cases po with
      | none => exact ih htail p hp
      | some x =>
          rcases List.mem_cons.mp hp with rfl | hmem
          · exact parse_run_shape hpo
          · exact ih htail p hmem

theorem parse_message_parts_shape {renderer : Jsonish} {ps : List MessagePart}
    (h : parse_message_parts renderer = .ok ps) : ∀ p ∈ ps, textOrEmoji p := by
  unfold parse_message_parts at h
  obtain ⟨msg, _, h⟩ := bind_ok_inv h
  obtain ⟨rj, _, h⟩ := bind_ok_inv h
  exact parse_runs_shape h

theorem parse_sticker_parts_shape {renderer : Jsonish} {ps : List MessagePart}
    (h : parse_sticker_parts renderer = .ok ps) :
    ∃ u al, ps = [.sticker u al] := by
  unfold parse_sticker_parts at h
  obtain ⟨sj, _, h⟩ := bind_ok_inv h
  obtain ⟨tj, _, h⟩ := bind_ok_inv h
  obtain ⟨url, _, h⟩ := bind_ok_inv h
  obtain ⟨acc, _, h⟩ := bind_ok_inv h
  obtain ⟨ad, _, h⟩ := bind_ok_inv h
  obtain ⟨label, _, h⟩ := bind_ok_inv h
  exact ⟨url.asStr, label.asStr, (pure_ok_inv h).symm⟩

/-- Inversion of the finalizing tail: where each field of the produced
record comes from, in particular the id derivation. -/
theorem finalize_ok_inv {fmt : Int → String} {idx : Nat} {mt : String}
    {renderer : Jsonish} {kd : KindData} {ts : Int} {c : ChatItem}
    (h : finalize fmt idx mt renderer kd ts = .ok c) :
    c.author = (if kd.author.truthy then kd.author else .str "Unknown") ∧
    c.parts = kd.parts ∧ c.text = kd.text_plain ∧ c.timestamp_ms = ts ∧
    c.kind = mt ∧ c.amount = kd.amount_value ∧ c.amount_text = kd.amount_text ∧
    c.colors = kd.super_colors ∧
    c.id = pyStr (pyOr (rawIdOf renderer)
      (.str (syntheticId ts
        (if kd.author.truthy then kd.author else .str "Unknown") kd.text_plain idx))) := by
  unfold finalize at h
  obtain ⟨icon, _, h⟩ := bind_ok_inv h
  obtain ⟨g1, hg1, h⟩ := bind_ok_inv h
  obtain ⟨g2, hg2, h⟩ := bind_ok_inv h
  obtain ⟨g3, hg3, h⟩ := bind_ok_inv h
  have hc := pure_ok_inv h
  subst hc
  rw [dictGet_ok hg1, dictGet_ok hg2, dictGet_ok hg3]
  exact ⟨rfl, rfl, rfl, rfl, rfl, rfl, rfl, rfl, rfl⟩

theorem redeem_parts_shape {tp : String} {mr : Jsonish} {ps : List MessagePart}
    (h : redeem_parts tp mr = .ok ps) :
    (∀ p ∈ ps, textOrEmoji p) ∧
    ((∃ runs, parse_message_parts (.obj [("message", .obj [("runs", runs)])]) = .ok ps ∧
        runs.truthy = true) ∨ ps = [.text tp]) := by
  unfold redeem_parts at h
  by_cases hmr : mr.truthy = true
  · rw [if_pos hmr] at h
    exact ⟨parse_message_parts_shape h, Or.inl ⟨mr, h, hmr⟩⟩
  · rw [if_neg hmr] at h
    have := pure_ok_inv h
    subst this
    refine ⟨?_, Or.inr rfl⟩
    intro p hp
    rw [List.mem_singleton] at hp
    exact Or.inl ⟨tp, hp⟩

/-- Parts and flattened text per kind, as produced by the dispatch
arms. -/
theorem build_kind_parts {mt : String} {renderer author0 : Jsonish} {kd : KindData}
    (h : build_kind mt renderer author0 = .ok kd) :
    (mt = "sticker" → ∃ u al, kd.parts = [.sticker u al]) ∧
    (mt = "gift_purchase" → kd.parts = [.text kd.text_plain]) ∧
    (mt = "gift_redeem" →
        (∀ p ∈ kd.parts, textOrEmoji p) ∧
        ((∃ runs, parse_message_parts (.obj [("message", .obj [("runs", runs)])]) =
            .ok kd.parts ∧ runs.truthy = true) ∨ kd.parts = [.text kd.text_plain])) ∧
    (mt ≠ "sticker" → mt ≠ "gift_purchase" → mt ≠ "gift_redeem" →
        ∀ p ∈ kd.parts, textOrEmoji p) := by
  unfold build_kind at h
  by_cases h1 : mt = "text"
  · subst h1
    rw [if_pos rfl] at h
    obtain ⟨parts, hp, h⟩ := bind_ok_inv h
    have := pure_ok_inv h
    subst this
    exact ⟨fun he => absurd he (by decide), fun he => absurd he (by decide),
      fun he => absurd he (by decide),
      fun _ _ _ => parse_message_parts_shape hp⟩
  · rw [if_neg h1] at h
    by_cases h2 : mt = "paid"
    · subst h2
      rw [if_pos rfl] at h
      obtain ⟨parts, hp, h⟩ := bind_ok_inv h
      obtain ⟨at0, _, h⟩ := bind_ok_inv h
      obtain ⟨c1, _, h⟩ := bind_ok_inv h
      obtain ⟨hb, _, h⟩ := bind_ok_inv h
      obtain ⟨c2, _, h⟩ := bind_ok_inv h
      obtain ⟨ht2, _, h⟩ := bind_ok_inv h
      obtain ⟨c3, _, h⟩ := bind_ok_inv h
      obtain ⟨bb, _, h⟩ := bind_ok_inv h
      obtain ⟨c4, _, h⟩ := bind_ok_inv h
      obtain ⟨bt, _, h⟩ := bind_ok_inv h
      have := pure_ok_inv h
      subst this
      exact ⟨fun he => absurd he (by decide), fun he => absurd he (by decide),
        fun he => absurd he (by decide),
        fun _ _ _ => parse_message_parts_shape hp⟩
    · rw [if_neg h2] at h
      by_cases h3 : mt = "sticker"
      · subst h3
        rw [if_pos rfl] at h
        obtain ⟨parts, hp, h⟩ := bind_ok_inv h
        obtain ⟨at0, _, h⟩ := bind_ok_inv h
        obtain ⟨bgr, _, h⟩ := bind_ok_inv h
        obtain ⟨mc, _, h⟩ := bind_ok_inv h
        obtain ⟨an, _, h⟩ := bind_ok_inv h
        obtain ⟨bb, _, h⟩ := bind_ok_inv h
        obtain ⟨bt, _, h⟩ := bind_ok_inv h
        have := pure_ok_inv h
        subst this
        refine ⟨fun _ => parse_sticker_parts_shape hp, fun he => absurd he (by decide),
          fun he => absurd he (by decide), fun hne _ _ => absurd rfl hne⟩
      · rw [if_neg h3] at h
        by_cases h4 : mt = "membership"
        · subst h4
          rw [if_pos rfl] at h
          obtain ⟨parts, hp, h⟩ := bind_ok_inv h
          obtain ⟨hp1, _, h⟩ := bind_ok_inv h
          obtain ⟨r1, _, h⟩ := bind_ok_inv h
          obtain ⟨hs1, _, h⟩ := bind_ok_inv h
          obtain ⟨r2, _, h⟩ := bind_ok_inv h
          have := pure_ok_inv h
          subst this
          exact ⟨fun he => absurd he (by decide), fun he => absurd he (by decide),
            fun he => absurd he (by decide),
            fun _ _ _ => parse_message_parts_shape hp⟩
        · rw [if_neg h4] at h
          by_cases h5 : mt = "gift_purchase"
          · subst h5
            rw [if_pos rfl] at h
            obtain ⟨hh, _, h⟩ := bind_ok_inv h
            obtain ⟨h2j, _, h⟩ := bind_ok_inv h
            obtain ⟨haj, _, h⟩ := bind_ok_inv h
            obtain ⟨stj, _, h⟩ := bind_ok_inv h
            obtain ⟨raw, _, h⟩ := bind_ok_inv h
            obtain ⟨dn, _, h⟩ := bind_ok_inv h
            have := pure_ok_inv h
            subst this
            exact ⟨fun he => absurd he (by decide), fun _ => rfl,
              fun he => absurd he (by decide), fun _ hne _ => absurd rfl hne⟩
          · rw [if_neg h5] at h
            by_cases h6 : mt = "gift_redeem"
            · subst h6
              rw [if_pos rfl] at h
              obtain ⟨hd, _, h⟩ := bind_ok_inv h
              obtain ⟨r1, _, h⟩ := bind_ok_inv h
              obtain ⟨sub, _, h⟩ := bind_ok_inv h
              obtain ⟨r2, _, h⟩ := bind_ok_inv h
              obtain ⟨msgj, _, h⟩ := bind_ok_inv h
              obtain ⟨mruns, _, h⟩ := bind_ok_inv h
              obtain ⟨parts, hp, h⟩ := bind_ok_inv h
              have := pure_ok_inv h
              subst this
              have hr := redeem_parts_shape hp
              exact ⟨fun he => absurd he (by decide), fun he => absurd he (by decide),
                fun _ => hr, fun _ _ hne => absurd rfl hne⟩
            · rw [if_neg h6] at h
              have := pure_ok_inv h
              subst this
              exact ⟨fun he => absurd he h3, fun he => absurd he h5,
                fun he => absurd he h6, fun _ _ _ p hp => absurd hp (by simp)⟩

/-- The author value each dispatch arm stores is a string whenever the
incoming author value is one. -/
theorem build_kind_author {mt : String} {renderer author0 : Jsonish} {kd : KindData}
    (h : build_kind mt renderer author0 = .ok kd)
    (ha : ∃ s, author0 = .str s) : ∃ s, kd.author = .str s := by
  unfold build_kind at h
  by_cases h1 : mt = "text"
  · rw [if_pos h1] at h
    obtain ⟨parts, _, h⟩ := bind_ok_inv h
    have := pure_ok_inv h
    subst this
    exact ha
  · rw [if_neg h1] at h
    by_cases h2 : mt = "paid"
    · rw [if_pos h2] at h
      obtain ⟨parts, _, h⟩ := bind_ok_inv h
      obtain ⟨at0, _, h⟩ := bind_ok_inv h
      obtain ⟨c1, _, h⟩ := bind_ok_inv h
      obtain ⟨hb, _, h⟩ := bind_ok_inv h
      obtain ⟨c2, _, h⟩ := bind_ok_inv h
      obtain ⟨ht2, _, h⟩ := bind_ok_inv h
      obtain ⟨c3, _, h⟩ := bind_ok_inv h
      obtain ⟨bb, _, h⟩ := bind_ok_inv h
      obtain ⟨c4, _, h⟩ := bind_ok_inv h
      obtain ⟨bt, _, h⟩ := bind_ok_inv h
      have := pure_ok_inv h
      subst this
      exact ha
    · rw [if_neg h2] at h
      by_cases h3 : mt = "sticker"
      · rw [if_pos h3] at h
        obtain ⟨parts, _, h⟩ := bind_ok_inv h
        obtain ⟨at0, _, h⟩ := bind_ok_inv h
        obtain ⟨bgr, _, h⟩ := bind_ok_inv h
        obtain ⟨mc, _, h⟩ := bind_ok_inv h
        obtain ⟨an, _, h⟩ := bind_ok_inv h
        obtain ⟨bb, _, h⟩ := bind_ok_inv h
        obtain ⟨bt, _, h⟩ := bind_ok_inv h
        have := pure_ok_inv h
        subst this
        exact ha
      · rw [if_neg h3] at h
        by_cases h4 : mt = "membership"
        · rw [if_pos h4] at h
          obtain ⟨parts, _, h⟩ := bind_ok_inv h
          obtain ⟨hp1, _, h⟩ := bind_ok_inv h
          obtain ⟨r1, _, h⟩ := bind_ok_inv h
          obtain ⟨hs1, _, h⟩ := bind_ok_inv h
          obtain ⟨r2, _, h⟩ := bind_ok_inv h
          have := pure_ok_inv h
          subst this
          exact ha
        · rw [if_neg h4] at h
          by_cases h5 : mt = "gift_purchase"
          · rw [if_pos h5] at h
            obtain ⟨hh, _, h⟩ := bind_ok_inv h
            obtain ⟨h2j, _, h⟩ := bind_ok_inv h
            obtain ⟨haj, _, h⟩ := bind_ok_inv h
            obtain ⟨stj, _, h⟩ := bind_ok_inv h
            obtain ⟨raw, _, h⟩ := bind_ok_inv h
            obtain ⟨dn, hdn, h⟩ := bind_ok_inv h
            have := pure_ok_inv h
            subst this
            show ∃ s, pyOr (.str dn) (pyOr author0 (.str "Unknown")) = .str s
            unfold pyOr
            by_cases hdnt : (Jsonish.str dn).truthy = true
            · rw [if_pos hdnt]
              exact ⟨dn, rfl⟩
            · rw [if_neg hdnt]
              obtain ⟨s, rfl⟩ := ha
              by_cases hat : (Jsonish.str s).truthy = true
              · rw [if_pos hat]
                exact ⟨s, rfl⟩
              · rw [if_neg hat]
                exact ⟨"Unknown", rfl⟩
          · rw [if_neg h5] at h
            by_cases h6 : mt = "gift_redeem"
            · rw [if_pos h6] at h
              obtain ⟨hd, _, h⟩ := bind_ok_inv h
              obtain ⟨r1, _, h⟩ := bind_ok_inv h
              obtain ⟨sub, _, h⟩ := bind_ok_inv h
              obtain ⟨r2, _, h⟩ := bind_ok_inv h
              obtain ⟨msgj, _, h⟩ := bind_ok_inv h
              obtain ⟨mruns, _, h⟩ := bind_ok_inv h
              obtain ⟨parts, _, h⟩ := bind_ok_inv h
              have := pure_ok_inv h
              subst this
              show ∃ s, (if author0.truthy = true then author0 else .str "Unknown") = .str s
              by_cases hat : author0.truthy = true
              · rw [if_pos hat]
                exact ha
              · rw [if_neg hat]
                exact ⟨"Unknown", rfl⟩
            · rw [if_neg h6] at h
              have := pure_ok_inv h
              subst this
              exact ha

/-- A successful author extraction yields a string, provided the
`authorName.simpleText` value is a string whenever truthy. -/
theorem get_author_str {renderer author0 : Jsonish}
    (h : get_author renderer = .ok author0)
    (hst : strIfTruthy (authorNameSimpleText renderer) = true) :
    ∃ s, author0 = .str s := by
  unfold get_author at h
  obtain ⟨ab, hab, h⟩ := bind_ok_inv h
  obtain ⟨st, hst2, h⟩ := bind_ok_inv h
  have hab' := dictGet_ok hab
  have hst' := dictGet_ok hst2
  have hstv : st = authorNameSimpleText renderer := by
    rw [hst', hab']
    rfl
  unfold simple_or_runs at h
  by_cases htr : st.truthy = true
  · rw [if_pos htr] at h
    have hau := pure_ok_inv h
    rw [← hstv] at hst
    unfold strIfTruthy at hst
    rw [htr] at hst
    simp only [Bool.not_true, Bool.false_or] at hst
    cases st with
    | str s => exact ⟨s, hau.symm⟩
    | null => simp at hst
    | bool b => simp at hst
    | num n => simp at hst
    | arr xs => simp at hst
    | obj kvs => simp at hst
  · rw [if_neg htr] at h
    obtain ⟨runs, _, h⟩ := bind_ok_inv h
    exact ⟨_, (pure_ok_inv h).symm⟩

/-! ## C4, C8, C9 — normalizer record invariants -/

/-- The record `normalize_item fmt0 0 goodText` produces. -/
def goodChatItem : ChatItem where
  id := "abc123"
  colors := .null
  author := .str "alice"
  icon := .null
  text := "hello"
  parts := [.text "hello", .emoji "http://e" ":smile:"]
  timestamp_ms := 1700000000000
  timestamp := ""
  kind := "text"
  amount := none
  amount_text := ""

/-- The renderer of `noAuthorText`. -/
def rendNA : Jsonish :=
  .obj [("timestampUsec", .str "5000"),
    ("message", .obj [("runs", .arr [.obj [("text", .str "hi")]])])]

/-- The item of `noAuthorText`. -/
def itemNA : Jsonish := .obj [("liveChatTextMessageRenderer", rendNA)]

/-- The record `normalize_item fmt0 3 noAuthorText` produces: author
falls back to "Unknown" and the id is synthesized. -/
def noAuthorItem : ChatItem where
  id := "5_Unknown_hi_3"
  colors := .null
  author := .str "Unknown"
  icon := .null
  text := "hi"
  parts := [.text "hi"]
  timestamp_ms := 5
  timestamp := ""
  kind := "text"
  amount := none
  amount_text := ""

/-- C4: the parts of every normalized record are consistent with its
kind — text, paid and membership records carry text/emoji parts only,
a sticker record exactly one sticker part, a gift-purchase record
exactly one synthesized text part, and a gift-redeem record either the
parsed message parts or one synthesized text part. -/
theorem parts_consistent_with_kind {fmt : Int → String} {idx : Nat}
    {a : Jsonish} {c : ChatItem}
    (h : normalize_item fmt idx a = .ok (some c)) :
    (c.kind = "sticker" → ∃ u al, c.parts = [.sticker u al]) ∧
    (c.kind = "gift_purchase" → c.parts = [.text c.text]) ∧
    (c.kind = "gift_redeem" →
        (∀ p ∈ c.parts, textOrEmoji p) ∧
        ((∃ runs, parse_message_parts (.obj [("message", .obj [("runs", runs)])]) =
            .ok c.parts ∧ runs.truthy = true) ∨ c.parts = [.text c.text])) ∧
    ((c.kind = "text" ∨ c.kind = "paid" ∨ c.kind = "membership") →
        ∀ p ∈ c.parts, textOrEmoji p) := by
  obtain ⟨item, mt, renderer, author0, tsu, kd, hio, ht, hcls, hrt, ha, hts, hbk, hfin⟩ :=
    normalize_item_ok_some h
  obtain ⟨hauthor, hparts, htext, htsf, hkind, _, _, _, hid⟩ := finalize_ok_inv hfin
  obtain ⟨b1, b2, b3, b4⟩ := build_kind_parts hbk
  refine ⟨?_, ?_, ?_, ?_⟩
  · intro hk
    rw [hparts]
    exact b1 (hkind.symm.trans hk)
  · intro hk
    rw [hparts, htext]
    exact b2 (hkind.symm.trans hk)
  · intro hk
    have hb := b3 (hkind.symm.trans hk)
    rw [hparts, htext]
    exact hb
  · intro hk
    have hmt : mt = "text" ∨ mt = "paid" ∨ mt = "membership" := by
      rcases hk with hk | hk | hk
      exacts [Or.inl (hkind.symm.trans hk), Or.inr (Or.inl (hkind.symm.trans hk)),
        Or.inr (Or.inr (hkind.symm.trans hk))]
    have hne : mt ≠ "sticker" ∧ mt ≠ "gift_purchase" ∧ mt ≠ "gift_redeem" := by
      rcases hmt with rfl | rfl | rfl <;> exact ⟨by decide, by decide, by decide⟩
    rw [hparts]
    exact b4 hne.1 hne.2.1 hne.2.2

theorem parts_consistent_with_kind_witness :
    (goodChatItem.kind = "sticker" → ∃ u al, goodChatItem.parts = [.sticker u al]) ∧
    (goodChatItem.kind = "gift_purchase" → goodChatItem.parts = [.text goodChatItem.text]) ∧
    (goodChatItem.kind = "gift_redeem" →
        (∀ p ∈ goodChatItem.parts, textOrEmoji p) ∧
        ((∃ runs, parse_message_parts (.obj [("message", .obj [("runs", runs)])]) =
            .ok goodChatItem.parts ∧ runs.truthy = true) ∨
          goodChatItem.parts = [.text goodChatItem.text])) ∧
    ((goodChatItem.kind = "text" ∨ goodChatItem.kind = "paid" ∨
        goodChatItem.kind = "membership") →
        ∀ p ∈ goodChatItem.parts, textOrEmoji p) :=
  @parts_consistent_with_kind fmt0 0 goodText goodChatItem (by decide)

/-- C8: when the renderer offers no truthy native identifier the id is
the deterministic composite of timestamp, author, text and batch
position; when it does, the id is `str` of that identifier. -/
theorem id_derivation_spec {fmt : Int → String} {idx : Nat} {a : Jsonish}
    {c : ChatItem} {item : Jsonish} {msg_type : String} {renderer : Jsonish}
    (h : normalize_item fmt idx a = .ok (some c))
    (hio : item_of a = .ok item)
    (hcls : classify item = some (msg_type, renderer)) :
    ((rawIdOf renderer).truthy = false →
        c.id = syntheticId c.timestamp_ms c.author c.text idx) ∧
    ((rawIdOf renderer).truthy = true → c.id = pyStr (rawIdOf renderer)) := by
  obtain ⟨item', mt', rend', author0, tsu, kd, hio', ht', hcls', hrt', ha', hts', hbk', hfin'⟩ :=
    normalize_item_ok_some h
  rw [hio] at hio'
  have hitem : item = item' := Except.ok.inj hio'
  subst hitem
  rw [hcls] at hcls'
  have hp := Option.some.inj hcls'
  have hmt : msg_type = mt' := congrArg Prod.fst hp
  have hrd : renderer = rend' := congrArg Prod.snd hp
  subst hmt
  subst hrd
  obtain ⟨hauthor, hparts, htext, hts, hkind, _, _, _, hid⟩ := finalize_ok_inv hfin'
  constructor
  · intro hfalse
    rw [hid]
    unfold pyOr
    rw [hfalse]
    simp only [Bool.false_eq_true, if_false]
    show syntheticId (Int.fdiv tsu 1000)
      (if kd.author.truthy = true then kd.author else .str "Unknown") kd.text_plain idx = _
    rw [hts, hauthor, htext]
  · intro htrue
    rw [hid]
    unfold pyOr
    rw [htrue]
    simp only [if_true]

theorem id_derivation_spec_witness :
    noAuthorItem.id =
      syntheticId noAuthorItem.timestamp_ms noAuthorItem.author noAuthorItem.text 3 :=
  (@id_derivation_spec fmt0 3 noAuthorText noAuthorItem itemNA "text" rendNA
    (by decide) (by decide) (by decide)).1 (by decide)

/-- C9: the author of every normalized record is a non-empty string
(falling back to "Unknown"), provided the `authorName.simpleText` the
platform supplies is a string whenever truthy. -/
theorem author_nonempty {fmt : Int → String} {idx : Nat} {a : Jsonish}
    {c : ChatItem} {item : Jsonish} {msg_type : String} {renderer : Jsonish}
    (h : normalize_item fmt idx a = .ok (some c))
    (hio : item_of a = .ok item)
    (hcls : classify item = some (msg_type, renderer))
    (hst : strIfTruthy (authorNameSimpleText renderer) = true) :
    ∃ s, c.author = .str s ∧ s ≠ "" := by
  obtain ⟨item', mt', rend', author0, tsu, kd, hio', ht', hcls', hrt', ha', hts', hbk', hfin'⟩ :=
    normalize_item_ok_some h
  rw [hio] at hio'
  have hitem : item = item' := Except.ok.inj hio'
  subst hitem
  rw [hcls] at hcls'
  have hp := Option.some.inj hcls'
  have hmt : msg_type = mt' := congrArg Prod.fst hp
  have hrd : renderer = rend' := congrArg Prod.snd hp
  subst hmt
  subst hrd
  obtain ⟨s, hs⟩ := build_kind_author hbk' (get_author_str ha' hst)
  have hauthor := (finalize_ok_inv hfin').1
  rw [hs] at hauthor
  by_cases hne : s = ""
  · subst hne
    rw [show (Jsonish.str "").truthy = false from rfl] at hauthor
    simp only [Bool.false_eq_true, if_false] at hauthor
    exact ⟨"Unknown", hauthor, by decide⟩
  · have htr : (Jsonish.str s).truthy = true := by
      show (s != "") = true
      rw [bne_iff_ne]
      exact hne
    rw [htr] at hauthor
    simp only [if_true] at hauthor
    exact ⟨s, hauthor, hne⟩

theorem author_nonempty_witness :
    ∃ s, noAuthorItem.author = .str s ∧ s ≠ "" :=
  @author_nonempty fmt0 3 noAuthorText noAuthorItem itemNA "text" rendNA
    (by decide) (by decide) (by decide) (by decide)

/-! ## C6 — recent-comments query -/

instance : IsTotal (Nat × StoreRow) (fun a b => chronoLE b a) :=
  ⟨fun a b => by unfold chronoLE; omega⟩

instance : IsTrans (Nat × StoreRow) (fun a b => chronoLE b a) :=
  ⟨fun a b c h1 h2 => by unfold chronoLE at h1 h2 ⊢; omega⟩

/-- A three-row store whose insertion order differs from its
chronological order. -/
def s3 : List StoreRow :=
  [rowOf (.obj [("id", .str "r1"), ("timestamp_ms", .num 30)]),
   rowOf (.obj [("id", .str "r2"), ("timestamp_ms", .num 10)]),
   rowOf (.obj [("id", .str "r3"), ("timestamp_ms", .num 20)])]

/-- C6: for an in-range limit the query returns `min limit |store|`
rows, ordered oldest-to-newest by timestamp, all drawn from the store,
and they are the most recent ones — every stored row left out is
`ORDER BY`-below every returned row, whatever the insertion order; an
out-of-range limit falls back to the default 50. -/
theorem get_recent_comments_spec (s : List StoreRow) (limit : Int)
    (h1 : 1 ≤ limit) (h2 : limit ≤ 500) :
    (get_recent_comments (some s) limit).length = min limit.toNat s.length ∧
    (get_recent_comments (some s) limit).Pairwise
      (fun r1 r2 => rowTs r1 ≤ rowTs r2) ∧
    (∀ r ∈ get_recent_comments (some s) limit, r ∈ s) ∧
    (∀ p ∈ s.enum, p ∉ recent_keyed s limit.toNat →
        ∀ q ∈ recent_keyed s limit.toNat, chronoLE p q) ∧
    (∀ limit' : Int, limit' < 1 ∨ 500 < limit' →
        get_recent_comments (some s) limit' = get_recent_comments (some s) 50) := by
  have hred : get_recent_comments (some s) limit =
      (recent_keyed s limit.toNat).map Prod.snd := by
    unfold get_recent_comments
    simp [h1, h2]
  set r := fun a b : Nat × StoreRow => chronoLE b a with hr
  set L := s.enum.insertionSort r with hL
  have hsorted : L.Pairwise r := List.sorted_insertionSort r s.enum
  have hperm : L.Perm s.enum := List.perm_insertionSort r s.enum
  have hLlen : L.length = s.length := by
    rw [hL, List.length_insertionSort, List.enum_length]
  have hrk : recent_keyed s limit.toNat = (L.take limit.toNat).reverse := rfl
  refine ⟨?_, ?_, ?_, ?_, ?_⟩
  · rw [hred, List.length_map, hrk, List.length_reverse, List.length_take, hLlen]
  · rw [hred, List.pairwise_map, hrk, List.pairwise_reverse]
    have htake : (L.take limit.toNat).Pairwise r :=
      hsorted.sublist (List.take_sublist _ _)
    refine htake.imp ?_
    intro a b hab
    rw [hr] at hab
    unfold chronoLE at hab
    omega
  · intro x hx
    rw [hred] at hx
    obtain ⟨p, hp, rfl⟩ := List.mem_map.mp hx
    rw [hrk, List.mem_reverse] at hp
    have hpL : p ∈ L := List.take_subset _ _ hp
    have hpe : p ∈ s.enum := hperm.mem_iff.mp hpL
    rw [List.mem_enum_iff_getElem?] at hpe
    exact List.getElem?_mem hpe
  · intro p hpe hpn q hq
    rw [hrk, List.mem_reverse] at hpn hq
    have hpL : p ∈ L := hperm.mem_iff.mpr hpe
    have hpd : p ∈ L.drop limit.toNat := by
      have hsplit : p ∈ L.take limit.toNat ++ L.drop limit.toNat := by
        rw [List.take_append_drop]; exact hpL
      rcases List.mem_append.mp hsplit with h | h
      · exact absurd h hpn
      · exact h
    have hpw : (L.take limit.toNat ++ L.drop limit.toNat).Pairwise r := by
      rw [List.take_append_drop]; exact hsorted
    exact (List.pairwise_append.mp hpw).2.2 q hq p hpd
  · intro limit' h'
    have hcond : ¬(1 ≤ limit' ∧ limit' ≤ 500) := by omega
    unfold get_recent_comments
    simp only [hcond, if_false, if_neg]
    rfl

theorem get_recent_comments_spec_witness :
    (get_recent_comments (some s3) 2).length = min (2 : Int).toNat s3.length ∧
    (get_recent_comments (some s3) 2).Pairwise
      (fun r1 r2 => rowTs r1 ≤ rowTs r2) ∧
    (∀ r ∈ get_recent_comments (some s3) 2, r ∈ s3) ∧
    (∀ p ∈ s3.enum, p ∉ recent_keyed s3 (2 : Int).toNat →
        ∀ q ∈ recent_keyed s3 (2 : Int).toNat, chronoLE p q) ∧
    (∀ limit' : Int, limit' < 1 ∨ 500 < limit' →
        get_recent_comments (some s3) limit' = get_recent_comments (some s3) 50) :=
  get_recent_comments_spec s3 2 (by decide) (by decide)

/-! ## C3 — continuation extraction -/

theorem extract_block_spec (block c : Jsonish)
    (hc : block.get? "continuation" = some c) :
    (block.hasKey "timeoutMs" = false → extract_block block = .ok (c, 2000)) ∧
    (∀ n : Int, block.get? "timeoutMs" = some (.num n) →
        extract_block block = .ok (c, n)) := by
  have hobj : ∃ kvs, block = .obj kvs := by
    cases block
    case obj kvs => exact ⟨kvs, rfl⟩
    all_goals simp [Jsonish.get?] at hc
  obtain ⟨kvs, rfl⟩ := hobj
  have hlk : List.lookup "continuation" kvs = some c := hc
  have hidx : dictIndex (.obj kvs) "continuation" = .ok c := by
    show (match List.lookup "continuation" kvs with
          | some v => Except.ok v
          | none => Except.error PyErr.keyError) = Except.ok c
    rw [hlk]
  constructor
  · intro habs
    rw [hasKey_eq_isSome] at habs
    have hnone : List.lookup "timeoutMs" kvs = none :=
      Option.not_isSome_iff_eq_none.mp (by simp [habs] :
        ¬((Jsonish.obj kvs).get? "timeoutMs").isSome = true)
    have hget : dictGet (.obj kvs) "timeoutMs" (.num 2000) = .ok (.num 2000) := by
      show Except.ok ((List.lookup "timeoutMs" kvs).getD (.num 2000)) = _
      rw [hnone]
      rfl
    unfold extract_block
    rw [hidx, except_bind_ok, hget, except_bind_ok]
    rfl
  · intro n hn
    have hsome : List.lookup "timeoutMs" kvs = some (.num n) := hn
    have hget : dictGet (.obj kvs) "timeoutMs" (.num 2000) = .ok (.num n) := by
      show Except.ok ((List.lookup "timeoutMs" kvs).getD (.num 2000)) = _
      rw [hsome]
      rfl
    unfold extract_block
    rw [hidx, except_bind_ok, hget, except_bind_ok]
    rfl

/-- C3: a `continuations[0]` envelope with exactly one of the two known
wrapper keys yields that wrapper's continuation value and its
`timeoutMs` as the delay (2000 when absent); an envelope with neither
wrapper raises, which is fatal to the poll iteration. -/
theorem extract_continuation_spec :
    (∀ cont0 block c : Jsonish,
        cont0.get? "timedContinuationData" = some block →
        cont0.hasKey "invalidationContinuationData" = false →
        block.get? "continuation" = some c →
        (block.hasKey "timeoutMs" = false →
            extract_continuation_data cont0 = .ok (c, 2000)) ∧
        (∀ n : Int, block.get? "timeoutMs" = some (.num n) →
            extract_continuation_data cont0 = .ok (c, n))) ∧
    (∀ cont0 block c : Jsonish,
        cont0.hasKey "timedContinuationData" = false →
        cont0.get? "invalidationContinuationData" = some block →
        block.get? "continuation" = some c →
        (block.hasKey "timeoutMs" = false →
            extract_continuation_data cont0 = .ok (c, 2000)) ∧
        (∀ n : Int, block.get? "timeoutMs" = some (.num n) →
            extract_continuation_data cont0 = .ok (c, n))) ∧
    (∀ cont0 : Jsonish,
        cont0.hasKey "timedContinuationData" = false →
        cont0.hasKey "invalidationContinuationData" = false →
        extract_continuation_data cont0 = .error .runtimeError) := by
  refine ⟨?_, ?_, ?_⟩
  · intro cont0 block c hb _ hc
    have hk : cont0.hasKey "timedContinuationData" = true := by
      rw [hasKey_eq_isSome, hb]; rfl
    have hgd : cont0.getD "timedContinuationData" .null = block := by
      simp [Jsonish.getD, hb]
    unfold extract_continuation_data
    rw [hk]
    simp only [if_true]
    rw [show (cont0.get? "timedContinuationData").getD .null = block from by
      simp [hb]]
    exact extract_block_spec block c hc
  · intro cont0 block c hk1 hb hc
    have hk : cont0.hasKey "invalidationContinuationData" = true := by
      rw [hasKey_eq_isSome, hb]; rfl
    unfold extract_continuation_data
    rw [hk1, hk]
    simp only [Bool.false_eq_true, if_false, if_true]
    rw [show (cont0.get? "invalidationContinuationData").getD .null = block from by
      simp [hb]]
    exact extract_block_spec block c hc
  · intro cont0 hk1 hk2
    unfold extract_continuation_data
    rw [hk1, hk2]
    rfl

theorem extract_continuation_spec_witness :
    extract_continuation_data
      (.obj [("timedContinuationData",
        .obj [("continuation", .str "X"), ("timeoutMs", .num 5000)])]) =
      .ok (.str "X", 5000) :=
  (extract_continuation_spec.1
    (.obj [("timedContinuationData",
      .obj [("continuation", .str "X"), ("timeoutMs", .num 5000)])])
    (.obj [("continuation", .str "X"), ("timeoutMs", .num 5000)])
    (.str "X") (by decide) (by decide) (by decide)).2 5000 (by decide)

/-! ## C5 — idempotent persistence -/

/-- C5: saving the same message twice against an initialized store
whose rows do not yet carry its id leaves exactly one record with that
id, whose content is the first write's row; the second call is a
silent no-op. -/
theorem save_comment_idempotent (s : List StoreRow) (msg : Jsonish)
    (h1 : msg.truthy = true) (h2 : msg.hasKey "id" = true)
    (h3 : ∀ r ∈ s, r.id ≠ (rowOf msg).id) :
    save_comment (some s) msg = some (s ++ [rowOf msg]) ∧
    save_comment (save_comment (some s) msg) msg = some (s ++ [rowOf msg]) ∧
    (s ++ [rowOf msg]).filter (fun r => r.id == (rowOf msg).id) = [rowOf msg] ∧
    ((s ++ [rowOf msg]).filter (fun r => r.id == (rowOf msg).id)).length = 1 := by
  have hA : (s.any fun x => x.id == (rowOf msg).id) = false := by
    rw [List.any_eq_false]
    intro x hx
    simpa using h3 x hx
  have hfirst : save_comment (some s) msg = some (s ++ [rowOf msg]) := by
    simp [save_comment, h1, h2, insert_or_ignore, hA]
  have hsecond : save_comment (some (s ++ [rowOf msg])) msg = some (s ++ [rowOf msg]) := by
    have hA2 : ((s ++ [rowOf msg]).any fun x => x.id == (rowOf msg).id) = true := by
      simp [List.any_append]
    simp [save_comment, h1, h2, insert_or_ignore, hA2]
  have hfil : (s ++ [rowOf msg]).filter (fun r => r.id == (rowOf msg).id) = [rowOf msg] := by
    rw [List.filter_append]
    have hs : s.filter (fun r => r.id == (rowOf msg).id) = [] := by
      rw [List.filter_eq_nil_iff]
      intro r hr
      simpa using h3 r hr
    simp [hs]
  exact ⟨hfirst, by rw [hfirst]; exact hsecond, hfil, by rw [hfil]; rfl⟩

theorem save_comment_idempotent_witness :
    save_comment (some []) (.obj [("id", .str "m1"), ("text", .str "hi")]) =
      some ([] ++ [rowOf (.obj [("id", .str "m1"), ("text", .str "hi")])]) ∧
    ([] ++ [rowOf (.obj [("id", .str "m1"), ("text", .str "hi")])]).filter
      (fun r => r.id == (rowOf (.obj [("id", .str "m1"), ("text", .str "hi")])).id) =
      [rowOf (.obj [("id", .str "m1"), ("text", .str "hi")])] := by
  have h := save_comment_idempotent [] (.obj [("id", .str "m1"), ("text", .str "hi")])
    (by decide) (by decide) (by intro r hr; simp at hr)
  exact ⟨h.1, h.2.2.1⟩

theorem unrecognized_item_skipped_witness :
    normalize_item fmt0 5 unknownItem = .ok none ∧
    process_actions_from fmt0 5 (unknownItem :: [goodText]) =
      process_actions_from fmt0 6 [goodText] :=
  unrecognized_item_skipped fmt0 5 unknownItem [goodText] (by decide)
